import Mathlib

/-!
Shallow embedding of `src/service_discovery.rs` from the pulsar-rs repository.

The file models the three public operations of `ServiceDiscovery`
(`lookup_topic`, `lookup_partitioned_topic_number`, `lookup_partitioned_topic`)
and the helper `convert_lookup_response`.  Network effects are made explicit:
every call is run against a *script*, a list of records describing the outcome
of the network interactions of one loop iteration (send result, the reconnect
and re-send used after a `Disconnected` error, and the `get_connection` result
used on redirect or on the terminal hop).  The loop is a structural recursion
on the script; a run that consumes the whole script while the source loop
would keep going ends in a distinguished `outOfScript` outcome.

URL parsing is performed by the external `url` crate, so the embedding is
parameterised over a parse oracle `parseUrl : String → Option Url`, where
`Url` keeps only the two observations the source makes on a parsed URL:
`host_str()` and `port()`.

The decoder `crate::error::server_error : i32 → Option ServerError` lives
outside the provided sources; the response models therefore carry the already
decoded field `error : Option ServerError` standing for
`response.error.and_then(crate::error::server_error)` in the source.
-/

deriving instance DecidableEq for Except

namespace PulsarSD

/-- Model of `url::Url`, restricted to the two observations the source makes:
`host_str()` and `port()`. -/
structure Url where
  host : Option String
  port : Option Nat
deriving DecidableEq, Repr

/-- `ConnectionError` from `crate::error`; only `Disconnected` is inspected by
the source, every other variant is collapsed into `other`. -/
inductive ConnectionError where
  | Disconnected
  | other (code : Nat)
deriving DecidableEq, Repr

/-- `ServerError` from `crate::message::proto`; only `ServiceNotReady` is
inspected by the source, every other variant is collapsed into `other`. -/
inductive ServerError where
  | ServiceNotReady
  | other (code : Nat)
deriving DecidableEq, Repr

/-- `command_lookup_topic_response::LookupType` from the protocol. -/
inductive LookupType where
  | Redirect
  | Connect
  | Failed
deriving DecidableEq, Repr

/-- `command_partitioned_topic_metadata_response::LookupType`. -/
inductive PartLookupType where
  | Success
  | Failed
deriving DecidableEq, Repr

/-- `ServiceDiscoveryError` from `crate::error` (the variants this module
produces). -/
inductive ServiceDiscoveryError where
  | Connection (e : ConnectionError)
  | Query (err : Option ServerError) (msg : Option String)
  | NotFound
deriving DecidableEq, Repr

/-- `BrokerAddress` from `crate::connection_manager`. -/
structure BrokerAddress where
  url : Url
  broker_url : String
  proxy : Bool
deriving DecidableEq, Repr

/-- The fields of `CommandLookupTopicResponse` read by this module.  The
`error` field stands for `response.error.and_then(crate::error::server_error)`
(the raw code and its decoder live outside the provided sources). -/
structure CommandLookupTopicResponse where
  response : Option LookupType
  error : Option ServerError
  message : Option String
  broker_service_url : Option String
  broker_service_url_tls : Option String
  proxy_through_service_url : Option Bool
  authoritative : Option Bool
deriving DecidableEq, Repr

/-- The `LookupResponse` struct of `service_discovery.rs`. -/
structure LookupResponse where
  broker_url : Url
  broker_url_tls : Option Url
  proxy : Bool
  redirect : Bool
  authoritative : Bool
deriving DecidableEq, Repr

/-- `convert_lookup_response`, parameterised over the URL parse oracle. -/
def convert_lookup_response (parseUrl : String → Option Url)
    (r : CommandLookupTopicResponse) :
    Except ServiceDiscoveryError LookupResponse :=
  let proxy := r.proxy_through_service_url.getD false
  let authoritative := r.authoritative.getD false
  let redirect := r.response = some LookupType.Redirect
  match r.broker_service_url with
  | none => .error .NotFound
  | some s =>
    match parseUrl s with
    | none => .error .NotFound
    | some broker_url =>
      match r.broker_service_url_tls with
      | none => .ok ⟨broker_url, none, proxy, decide redirect, authoritative⟩
      | some ts =>
        match parseUrl ts with
        | none => .error .NotFound
        | some tu => .ok ⟨broker_url, some tu, proxy, decide redirect, authoritative⟩

/-- The `host:port` string built at lines 95–102 of the source:
`format!("{}:{}", u.host_str().unwrap(), u.port().unwrap_or(default))`,
with the TLS URL preferred and default ports 6651 (TLS) / 6650 (plain).
`none` models the panic of `host_str().unwrap()` on a host-less URL. -/
def brokerUrlString (broker_url : Url) (broker_url_tls : Option Url) :
    Option String :=
  match broker_url_tls with
  | some u => u.host.map (fun h => h ++ ":" ++ toString (u.port.getD 6651))
  | none =>
      broker_url.host.map (fun h => h ++ ":" ++ toString (broker_url.port.getD 6650))

/-- The connection-manager facts `lookup_topic` consumes: `self.manager.url`
(the base URL) and `self.manager.get_base_address()`. -/
structure Manager where
  url : Url
  baseAddress : BrokerAddress
deriving DecidableEq, Repr

/-- The network outcomes of one iteration of the `lookup_topic` loop:
the first send, the reconnect + re-send used when the first send reports
`Disconnected`, and the `get_connection` call made after a successful parse
(on redirect or on the terminal hop). -/
structure Iter where
  send : Except ConnectionError CommandLookupTopicResponse
  reconnect : Except ConnectionError Unit
  resend : Except ConnectionError CommandLookupTopicResponse
  getConn : Except ConnectionError Unit
deriving Repr

/-- One lookup request event: the topic and `is_authoritative` flag sent, and
the `BrokerAddress` the connection carrying the request was acquired for. -/
structure ReqEvent where
  topic : String
  isAuthoritative : Bool
  connTarget : BrokerAddress
deriving DecidableEq, Repr

/-- The mutable local state of the `lookup_topic` loop. -/
structure St where
  proxied_query : Bool
  is_authoritative : Bool
  broker_address : BrokerAddress
  max_retries : Nat
  connTarget : BrokerAddress
deriving DecidableEq, Repr

/-- Final outcome of a `lookup_topic` run. `panicked` models the
`host_str().unwrap()` panic; `outOfScript` means the script ended while the
source loop would have continued. -/
inductive Outcome where
  | ok (addr : BrokerAddress)
  | err (e : ServiceDiscoveryError)
  | panicked
  | outOfScript
deriving DecidableEq, Repr

/-- A `lookup_topic` run: its outcome together with the observable trace —
the requests sent, the number of 500ms delays taken, the `BrokerAddress`
values built (one per successfully parsed hop), the value of `proxied_query`
at the start of each iteration, and the parsed outcome of the terminal
(non-redirect) response. -/
structure LookupRun where
  outcome : Outcome
  requests : List ReqEvent
  delays : Nat
  addresses : List BrokerAddress
  proxiedFlags : List Bool
  finalOutcome : Option LookupResponse
deriving DecidableEq, Repr

/-- The send step of one iteration (source lines 41–55): a `Disconnected`
error triggers one reconnect to the current `broker_address` and one re-send
of the same request; any other transport error, and any error of the
reconnect or the re-send, is fatal.  Returns the request events and either
the response (with the state updated to record the new connection's target)
or the fatal transport error. -/
def doSend (topic : String) (it : Iter) (st : St) :
    List ReqEvent × Except ConnectionError (CommandLookupTopicResponse × St) :=
  let req0 : ReqEvent := ⟨topic, st.is_authoritative, st.connTarget⟩
  match it.send with
  | .ok resp => ([req0], .ok (resp, st))
  | .error e =>
    if e = ConnectionError.Disconnected then
      match it.reconnect with
      | .error e2 => ([req0], .error e2)
      | .ok _ =>
        let req1 : ReqEvent := ⟨topic, st.is_authoritative, st.broker_address⟩
        match it.resend with
        | .error e2 => ([req0, req1], .error e2)
        | .ok resp => ([req0, req1], .ok (resp, { st with connTarget := st.broker_address }))
    else ([req0], .error e)

/-- Handling of one received lookup response (source lines 57–124): retry on
`ServiceNotReady` within budget, fail with `Query` otherwise; on a parsed
outcome update `is_authoritative`, build the `BrokerAddress` (base URL when
the chain is proxied, TLS-preferring `broker_url` string), then either follow
the redirect (continuing via `recurse` with the sticky proxy flag) or confirm
the connection and resolve. -/
def handleResp (parseUrl : String → Option Url) (mgr : Manager)
    (recurse : St → LookupRun) (getConn : Except ConnectionError Unit)
    (resp : CommandLookupTopicResponse) (reqs : List ReqEvent) (st : St) :
    LookupRun :=
  if resp.response = none ∨ resp.response = some LookupType.Failed then
    if resp.error = some ServerError.ServiceNotReady ∧ 0 < st.max_retries then
      let r := recurse { st with max_retries := st.max_retries - 1 }
      ⟨r.outcome, reqs ++ r.requests, 1 + r.delays, r.addresses,
        st.proxied_query :: r.proxiedFlags, r.finalOutcome⟩
    else
      ⟨.err (.Query resp.error resp.message), reqs, 0, [], [st.proxied_query], none⟩
  else
    match convert_lookup_response parseUrl resp with
    | .error e => ⟨.err e, reqs, 0, [], [st.proxied_query], none⟩
    | .ok lr =>
      let st := { st with is_authoritative := lr.authoritative }
      let connection_url := lr.broker_url_tls.getD lr.broker_url
      let url := if st.proxied_query || lr.proxy then mgr.url else connection_url
      match brokerUrlString lr.broker_url lr.broker_url_tls with
      | none => ⟨.panicked, reqs, 0, [], [st.proxied_query], none⟩
      | some bs =>
        let ba : BrokerAddress := ⟨url, bs, st.proxied_query || lr.proxy⟩
        if lr.redirect then
          match getConn with
          | .error e =>
              ⟨.err (.Connection e), reqs, 0, [ba], [st.proxied_query], none⟩
          | .ok _ =>
            let r := recurse
              { st with proxied_query := ba.proxy, broker_address := ba,
                        connTarget := ba }
            ⟨r.outcome, reqs ++ r.requests, r.delays, ba :: r.addresses,
              st.proxied_query :: r.proxiedFlags, r.finalOutcome⟩
        else
          match getConn with
          | .error e =>
              ⟨.err (.Connection e), reqs, 0, [ba], [st.proxied_query], none⟩
          | .ok _ => ⟨.ok ba, reqs, 0, [ba], [st.proxied_query], some lr⟩

/-- The loop of `lookup_topic` (source lines 40–125), as a structural
recursion on the script of iteration outcomes. -/
def lookupLoop (parseUrl : String → Option Url) (mgr : Manager) (topic : String) :
    List Iter → St → LookupRun
  | [], _ => ⟨.outOfScript, [], 0, [], [], none⟩
  | it :: rest, st =>
    match doSend topic it st with
    | (reqs, .error e) =>
        ⟨.err (.Connection e), reqs, 0, [], [st.proxied_query], none⟩
    | (reqs, .ok (resp, st)) =>
        handleResp parseUrl mgr (lookupLoop parseUrl mgr topic rest) it.getConn resp reqs st

/-- The initial loop state of `lookup_topic` (source lines 32–39). -/
def initSt (mgr : Manager) : St :=
  ⟨false, false, mgr.baseAddress, 20, mgr.baseAddress⟩

/-- `lookup_topic` (source lines 28–126): acquire the base connection, then
run the loop from the initial state. -/
def lookup_topic (parseUrl : String → Option Url) (mgr : Manager)
    (baseConn : Except ConnectionError Unit) (topic : String)
    (script : List Iter) : LookupRun :=
  match baseConn with
  | .error e => ⟨.err (.Connection e), [], 0, [], [], none⟩
  | .ok _ => lookupLoop parseUrl mgr topic script (initSt mgr)

/-- The fields of `CommandPartitionedTopicMetadataResponse` read by this
module; as in `CommandLookupTopicResponse`, `error` stands for the decoded
`response.error.and_then(crate::error::server_error)`. -/
structure CommandPartitionedTopicMetadataResponse where
  response : Option PartLookupType
  partitions : Option Nat
  error : Option ServerError
  message : Option String
deriving DecidableEq, Repr

/-- Network outcomes of one iteration of the `lookup_partitioned_topic_number`
loop: the send, and the reconnect (to the base connection) + re-send used when
the send reports `Disconnected`. -/
structure PartIter where
  send : Except ConnectionError CommandPartitionedTopicMetadataResponse
  reconnect : Except ConnectionError Unit
  resend : Except ConnectionError CommandPartitionedTopicMetadataResponse
deriving Repr

/-- Outcome of a `lookup_partitioned_topic_number` run. -/
inductive PartOutcome where
  | ok (partitions : Nat)
  | err (e : ServiceDiscoveryError)
  | outOfScript
deriving DecidableEq, Repr

/-- A `lookup_partitioned_topic_number` run: outcome, number of 500ms delays
taken, and number of requests sent. -/
structure PartRun where
  outcome : PartOutcome
  delays : Nat
  requests : Nat
deriving DecidableEq, Repr

/-- Handling of one received partition-metadata response (source lines
148–176): retry on `ServiceNotReady` within budget, fail with `Query`
otherwise, and on success return the partition count — a successful response
with no `partitions` field is itself a `Query` failure. -/
def partHandle (recurse : Nat → PartRun)
    (resp : CommandPartitionedTopicMetadataResponse) (reqs : Nat)
    (max_retries : Nat) : PartRun :=
  if resp.response = none ∨ resp.response = some PartLookupType.Failed then
    if resp.error = some ServerError.ServiceNotReady ∧ 0 < max_retries then
      let r := recurse (max_retries - 1)
      ⟨r.outcome, 1 + r.delays, reqs + r.requests⟩
    else ⟨.err (.Query resp.error resp.message), 0, reqs⟩
  else
    match resp.partitions with
    | some p => ⟨.ok p, 0, reqs⟩
    | none => ⟨.err (.Query resp.error resp.message), 0, reqs⟩

/-- The loop of `lookup_partitioned_topic_number` (source lines 136–176), as
a structural recursion on the script of iteration outcomes. -/
def partLoop : List PartIter → Nat → PartRun
  | [], _ => ⟨.outOfScript, 0, 0⟩
  | it :: rest, max_retries =>
    match it.send with
    | .ok resp => partHandle (partLoop rest) resp 1 max_retries
    | .error e =>
      if e = ConnectionError.Disconnected then
        match it.reconnect with
        | .error e2 => ⟨.err (.Connection e2), 0, 1⟩
        | .ok _ =>
          match it.resend with
          | .error e2 => ⟨.err (.Connection e2), 0, 2⟩
          | .ok resp => partHandle (partLoop rest) resp 2 max_retries
      else ⟨.err (.Connection e), 0, 1⟩

/-- `lookup_partitioned_topic_number` (source lines 129–177): acquire the
base connection, then run the loop with `max_retries = 20`. -/
def lookup_partitioned_topic_number (baseConn : Except ConnectionError Unit)
    (script : List PartIter) : PartRun :=
  match baseConn with
  | .error e => ⟨.err (.Connection e), 0, 0⟩
  | .ok _ => partLoop script 20

/-- `futures::future::try_join_all` on an ordered list of already-determined
results: the first error in order, else the list of all successes in order. -/
def try_join_all {ε α : Type} : List (Except ε α) → Except ε (List α)
  | [] => .ok []
  | x :: xs =>
    match x with
    | .error e => .error e
    | .ok a =>
      match try_join_all xs with
      | .error e => .error e
      | .ok l => .ok (a :: l)

/-- The partition topic names `lookup_partitioned_topic` synthesizes:
`format!("{}-partition-{}", topic, nb)` for `nb` in `0..partitions`. -/
def partitionNames (topic : String) (partitions : Nat) : List String :=
  (List.range partitions).map (fun nb => topic ++ "-partition-" ++ toString nb)

/-- `lookup_partitioned_topic` (source lines 180–197).  The partition count is
the result of `lookup_partitioned_topic_number` (modelled by `partLoop`),
passed here as `number`; `lookupFn` gives the outcome of `lookup_topic` for
each partition topic name (each fan-out lookup runs against its own network
environment, abstracted into this function). -/
def lookup_partitioned_topic (number : Except ServiceDiscoveryError Nat)
    (lookupFn : String → Except ServiceDiscoveryError BrokerAddress)
    (topic : String) :
    Except ServiceDiscoveryError (List (String × BrokerAddress)) :=
  match number with
  | .error e => .error e
  | .ok partitions =>
    let topics := (List.range partitions).map (fun nb =>
      let t := topic ++ "-partition-" ++ toString nb
      match lookupFn t with
      | .error e => .error e
      | .ok address => .ok (t, address))
    try_join_all topics

/-! ### Concrete instances used as test inputs -/

/-- A concrete URL parse oracle.  The entry for `mailto:user@example.com`
follows the `url` crate: the string parses successfully (non-special scheme)
but the parsed URL has no host, so `host_str()` returns `None`. -/
def pu0 : String → Option Url := fun s =>
  if s = "pulsar://b1:6650" then some ⟨some "b1", some 6650⟩
  else if s = "pulsar+ssl://b1" then some ⟨some "b1", none⟩
  else if s = "pulsar://b2" then some ⟨some "b2", none⟩
  else if s = "mailto:user@example.com" then some ⟨none, none⟩
  else none

/-- A concrete connection manager: base URL `base:6650`. -/
def mgr0 : Manager :=
  ⟨⟨some "base", some 6650⟩, ⟨⟨some "base", some 6650⟩, "base:6650", false⟩⟩

/-- A successful non-redirect response carrying both a plain and a TLS URL. -/
def okResp : CommandLookupTopicResponse :=
  ⟨some .Connect, none, none, some "pulsar://b1:6650", some "pulsar+ssl://b1",
    none, none⟩

/-- Iteration in which `okResp` is received directly. -/
def okIter : Iter := ⟨.ok okResp, .ok (), .ok okResp, .ok ()⟩

/-- A failed response with server error `ServiceNotReady`. -/
def snrResp (msg : Option String) : CommandLookupTopicResponse :=
  ⟨some .Failed, some ServerError.ServiceNotReady, msg, none, none, none, none⟩

/-- Iteration in which `snrResp msg` is received directly. -/
def snrIter (msg : Option String) : Iter :=
  ⟨.ok (snrResp msg), .ok (), .ok (snrResp msg), .ok ()⟩

/-- A failed response with an arbitrary server error. -/
def failResp (e : Option ServerError) (msg : Option String) :
    CommandLookupTopicResponse :=
  ⟨some .Failed, e, msg, none, none, none, none⟩

/-- Iteration in which `failResp e msg` is received directly. -/
def failIter (e : Option ServerError) (msg : Option String) : Iter :=
  ⟨.ok (failResp e msg), .ok (), .ok (failResp e msg), .ok ()⟩

/-- A redirect response (proxying, authoritative). -/
def redirResp : CommandLookupTopicResponse :=
  ⟨some .Redirect, none, none, some "pulsar://b1:6650", none, some true,
    some true⟩

/-- Iteration in which `redirResp` is received directly. -/
def redirIter : Iter := ⟨.ok redirResp, .ok (), .ok redirResp, .ok ()⟩

/-- A non-redirect response whose broker service URL parses (per the `url`
crate) to a URL with no host: accepted by `convert_lookup_response`, but the
`host_str().unwrap()` at line 99 of the source panics on it. -/
def mailResp : CommandLookupTopicResponse :=
  ⟨some .Connect, none, none, some "mailto:user@example.com", none, none, none⟩

/-- Iteration in which `mailResp` is received directly. -/
def mailIter : Iter := ⟨.ok mailResp, .ok (), .ok mailResp, .ok ()⟩

/-- Iteration whose first send reports `Disconnected`, with a successful
reconnect and a successful re-send answered by `okResp`. -/
def dcIter : Iter := ⟨.error .Disconnected, .ok (), .ok okResp, .ok ()⟩

/-- A successful partition-metadata response with the given count. -/
def pokResp (n : Nat) : CommandPartitionedTopicMetadataResponse :=
  ⟨some .Success, some n, none, none⟩

/-- A failed partition-metadata response with server error `ServiceNotReady`. -/
def psnrResp (msg : Option String) : CommandPartitionedTopicMetadataResponse :=
  ⟨some .Failed, none, some ServerError.ServiceNotReady, msg⟩

/-- Partition-metadata iteration in which `psnrResp msg` is received. -/
def psnrIter (msg : Option String) : PartIter :=
  ⟨.ok (psnrResp msg), .ok (), .ok (psnrResp msg)⟩

/-- A failed partition-metadata response with an arbitrary server error. -/
def pfailResp (e : Option ServerError) (msg : Option String) :
    CommandPartitionedTopicMetadataResponse :=
  ⟨some .Failed, none, e, msg⟩

/-- Partition-metadata iteration in which `pfailResp e msg` is received. -/
def pfailIter (e : Option ServerError) (msg : Option String) : PartIter :=
  ⟨.ok (pfailResp e msg), .ok (), .ok (pfailResp e msg)⟩

/-- A concrete broker address assigned per partition topic name. -/
def paddr0 (t : String) : BrokerAddress := ⟨⟨some "b1", some 6650⟩, t, false⟩

/-- A fan-out lookup in which every partition lookup succeeds. -/
def pf0 (t : String) : Except ServiceDiscoveryError BrokerAddress :=
  .ok (paddr0 t)

/-- A fan-out lookup in which exactly the partition-1 lookup fails. -/
def pfail1 (t : String) : Except ServiceDiscoveryError BrokerAddress :=
  if t = "t-partition-1" then .error .NotFound else .ok (paddr0 t)

/-- Specification of the `broker_url` string of a resolved address relative
to the final parsed outcome: the TLS URL's host:port (default port 6651) when
a TLS URL is present, else the plain URL's host:port (default port 6650). -/
def BrokerUrlSpec (r : LookupRun) (addr : BrokerAddress) : Prop :=
  ∃ lr, r.finalOutcome = some lr
    ∧ lr.redirect = false
    ∧ ((∃ u h, lr.broker_url_tls = some u ∧ u.host = some h
          ∧ addr.broker_url = h ++ ":" ++ toString (u.port.getD 6651))
       ∨ (lr.broker_url_tls = none
          ∧ ∃ h, lr.broker_url.host = some h
            ∧ addr.broker_url = h ++ ":" ++ toString (lr.broker_url.port.getD 6650)))

/-- A fully proxied run: every address built has `proxy = true` and connects
through the base URL, and `proxied_query` is true at every iteration start. -/
def StickyRun (mgr : Manager) (r : LookupRun) : Prop :=
  (∀ a ∈ r.addresses, a.proxy = true ∧ a.url = mgr.url)
  ∧ (∀ f ∈ r.proxiedFlags, f = true)

/-- Chain property of the addresses built within one lookup: from any proxied
hop onwards, every hop (itself included) is proxied and connects through the
base URL. -/
def ProxyChain (mgr : Manager) (l : List BrokerAddress) : Prop :=
  ∀ i j (hi : i < l.length) (hj : j < l.length), i ≤ j →
    (l.get ⟨i, hi⟩).proxy = true →
    (l.get ⟨j, hj⟩).proxy = true ∧ (l.get ⟨j, hj⟩).url = mgr.url

/-- The `proxied_query` flag never reverts: once true at some iteration
start, it is true at all later iteration starts. -/
def MonoFlags (l : List Bool) : Prop :=
  ∀ i j (hi : i < l.length) (hj : j < l.length), i ≤ j →
    l.get ⟨i, hi⟩ = true → l.get ⟨j, hj⟩ = true

/-! ### Theorems -/

/-- C4: `convert_lookup_response` returns `NotFound` exactly when the
response has no broker service URL, or the plain broker service URL fails to
parse, or a present TLS broker service URL fails to parse; every error it
returns is `NotFound` (never `Query`; the embedding is a total function, so
in particular the no-URL case cannot panic — the source checks `is_none`
before the `unwrap`); an accepted response yields `proxy` defaulting to
false, `authoritative` defaulting to false, and `redirect` true exactly when
the lookup type is Redirect. -/
theorem convert_lookup_response_spec
    (parseUrl : String → Option Url) (r : CommandLookupTopicResponse) :
    (convert_lookup_response parseUrl r = .error .NotFound ↔
       r.broker_service_url = none
       ∨ (∃ s, r.broker_service_url = some s ∧ parseUrl s = none)
       ∨ (∃ t, r.broker_service_url_tls = some t ∧ parseUrl t = none))
    ∧ (∀ e, convert_lookup_response parseUrl r = .error e → e = .NotFound)
    ∧ (∀ lr, convert_lookup_response parseUrl r = .ok lr →
         lr.proxy = r.proxy_through_service_url.getD false
         ∧ lr.authoritative = r.authoritative.getD false
         ∧ (lr.redirect = true ↔ r.response = some LookupType.Redirect)) := by
  rcases hu : r.broker_service_url with _ | s
  · simp [convert_lookup_response, hu]
  · rcases hp : parseUrl s with _ | u
    · simp [convert_lookup_response, hu, hp]
    · rcases ht : r.broker_service_url_tls with _ | t
      · refine ⟨?_, ?_, ?_⟩
        · simp [convert_lookup_response, hu, hp, ht]
        · intro e he
          simp [convert_lookup_response, hu, hp, ht] at he
        · intro lr hlr
          simp [convert_lookup_response, hu, hp, ht] at hlr
          subst hlr
          simp
      · rcases hq : parseUrl t with _ | tu
        · simp [convert_lookup_response, hu, hp, ht, hq]
        · refine ⟨?_, ?_, ?_⟩
          · simp [convert_lookup_response, hu, hp, ht, hq]
          · intro e he
            simp [convert_lookup_response, hu, hp, ht, hq] at he
          · intro lr hlr
            simp [convert_lookup_response, hu, hp, ht, hq] at hlr
            subst hlr
            simp

/-- Witness for C4 at a concrete accepted response: `okResp` is accepted,
and its outcome has the default proxy/authoritative flags and is not a
redirect. -/
theorem convert_lookup_response_spec_witness :
    ∃ lr, convert_lookup_response pu0 okResp = .ok lr
      ∧ lr.proxy = okResp.proxy_through_service_url.getD false
      ∧ lr.authoritative = okResp.authoritative.getD false
      ∧ (lr.redirect = true ↔ okResp.response = some LookupType.Redirect) := by
  refine ⟨⟨⟨some "b1", some 6650⟩, some ⟨some "b1", none⟩, false, false, false⟩,
    ?_, ?_⟩
  · decide
  · exact (convert_lookup_response_spec pu0 okResp).2.2 _ (by decide)

/-- If `g` succeeds on every element of `l`, `try_join_all` over the mapped
list returns all results in order. -/
theorem try_join_all_map_ok {α β ε : Type} (l : List α) (g : α → Except ε β)
    (f : α → β) (h : ∀ x ∈ l, g x = .ok (f x)) :
    try_join_all (l.map g) = .ok (l.map f) := by
  induction l with
  | nil => rfl
  | cons a t ih =>
    have ha : g a = .ok (f a) := h a (by simp)
    have ht : try_join_all (t.map g) = .ok (t.map f) :=
      ih (fun x hx => h x (by simp [hx]))
    simp [try_join_all, ha, ht]

/-- If `try_join_all` succeeds, every input was a success and its value is in
the output. -/
theorem try_join_all_ok_mem {ε α : Type} {l : List (Except ε α)} {res : List α}
    (h : try_join_all l = .ok res) : ∀ x ∈ l, ∃ a, x = .ok a ∧ a ∈ res := by
  induction l generalizing res with
  | nil => simp
  | cons x xs ih =>
    cases x with
    | error e => simp [try_join_all] at h
    | ok a =>
      rw [try_join_all] at h
      cases hxs : try_join_all xs with
      | error e => rw [hxs] at h; simp at h
      | ok t =>
        rw [hxs] at h
        cases h
        intro x hx
        rcases List.mem_cons.mp hx with hx | hx
        · exact ⟨a, hx, by simp⟩
        · obtain ⟨b, hb, hbmem⟩ := ih hxs x hx
          exact ⟨b, hb, by simp [hbmem]⟩

/-- If `g` fails at index `i` of `l` and succeeds on every earlier index,
`try_join_all` over the mapped list returns that error. -/
theorem try_join_all_first_error {ε α β : Type} (g : α → Except ε β) (e : ε) :
    ∀ (l : List α) (i : Nat) (hi : i < l.length),
      g (l.get ⟨i, hi⟩) = .error e →
      (∀ j (hj : j < l.length), j < i → ∃ b, g (l.get ⟨j, hj⟩) = .ok b) →
      try_join_all (l.map g) = .error e := by
  intro l
  induction l with
  | nil => intro i hi; exact absurd hi (by simp)
  | cons a t ih =>
    intro i hi hget hprev
    cases i with
    | zero =>
      simp only [List.get] at hget
      simp [try_join_all, hget]
    | succ i =>
      obtain ⟨b, hb⟩ := hprev 0 (by simp) (Nat.succ_pos i)
      have hrec := ih i (by simpa using hi) (by simpa using hget)
        (fun j hj hji => by
          simpa using hprev (j + 1) (by simpa using hj) (Nat.succ_lt_succ hji))
      simp only [List.get] at hb
      simp [try_join_all, hb, hrec]

/-- C5: with partition count `n`, `lookup_partitioned_topic` issues exactly
the lookups for `{topic}-partition-{i}`, `i < n` (in ascending index order),
and when every one succeeds it returns exactly those `n` pairs in order. -/
theorem lookup_partitioned_topic_fanout (topic : String) (n : Nat)
    (lookupFn : String → Except ServiceDiscoveryError BrokerAddress)
    (addrFn : String → BrokerAddress)
    (h : ∀ t, lookupFn t = .ok (addrFn t)) :
    lookup_partitioned_topic (.ok n) lookupFn topic
      = .ok ((partitionNames topic n).map (fun t => (t, addrFn t)))
    ∧ partitionNames topic n
      = (List.range n).map (fun i => topic ++ "-partition-" ++ toString i)
    ∧ (partitionNames topic n).length = n := by
  refine ⟨?_, rfl, by simp [partitionNames]⟩
  have hmap := try_join_all_map_ok (List.range n)
    (fun nb =>
      match lookupFn (topic ++ "-partition-" ++ toString nb) with
      | .error e => .error e
      | .ok address => .ok (topic ++ "-partition-" ++ toString nb, address))
    (fun nb => (topic ++ "-partition-" ++ toString nb,
      addrFn (topic ++ "-partition-" ++ toString nb)))
    (fun x _ => by simp [h])
  simpa [lookup_partitioned_topic, partitionNames, List.map_map] using hmap

/-- Witness for C5 with partition count 3 and an all-success fan-out. -/
theorem lookup_partitioned_topic_fanout_witness :
    lookup_partitioned_topic (.ok 3) pf0 "t"
      = .ok ((partitionNames "t" 3).map (fun t => (t, paddr0 t)))
    ∧ partitionNames "t" 3
      = (List.range 3).map (fun i => "t" ++ "-partition-" ++ toString i)
    ∧ (partitionNames "t" 3).length = 3 :=
  lookup_partitioned_topic_fanout "t" 3 pf0 paddr0 (fun _ => rfl)

/-- C9: with partition count 0, `lookup_partitioned_topic` returns the empty
list for every fan-out lookup function (so no per-partition lookup is
issued), and the synthesized name list is empty. -/
theorem lookup_partitioned_topic_zero (topic : String)
    (lookupFn : String → Except ServiceDiscoveryError BrokerAddress) :
    lookup_partitioned_topic (.ok 0) lookupFn topic = .ok []
    ∧ partitionNames topic 0 = [] :=
  ⟨rfl, rfl⟩

/-- C6: aggregation is all-or-nothing — a success contains an entry for
every partition (no partial list is ever returned), and if the lookup of
partition `i` fails while all earlier partitions succeed, the overall result
is exactly that error. -/
theorem lookup_partitioned_topic_all_or_nothing (topic : String) (n : Nat)
    (lookupFn : String → Except ServiceDiscoveryError BrokerAddress) :
    (∀ res, lookup_partitioned_topic (.ok n) lookupFn topic = .ok res →
       ∀ i, i < n →
         ∃ a, lookupFn (topic ++ "-partition-" ++ toString i) = .ok a
           ∧ (topic ++ "-partition-" ++ toString i, a) ∈ res)
    ∧ (∀ i e, i < n →
         lookupFn (topic ++ "-partition-" ++ toString i) = .error e →
         (∀ j, j < i → ∃ a,
            lookupFn (topic ++ "-partition-" ++ toString j) = .ok a) →
         lookup_partitioned_topic (.ok n) lookupFn topic = .error e) := by
  constructor
  · intro res hres i hi
    have hres' : try_join_all
        ((List.range n).map (fun nb =>
          match lookupFn (topic ++ "-partition-" ++ toString nb) with
          | .error e => .error e
          | .ok address => .ok (topic ++ "-partition-" ++ toString nb, address)))
        = .ok res := by simpa [lookup_partitioned_topic] using hres
    have hmem := try_join_all_ok_mem hres'
    have hin : (match lookupFn (topic ++ "-partition-" ++ toString i) with
        | .error e => Except.error e
        | .ok address =>
            Except.ok (topic ++ "-partition-" ++ toString i, address)) ∈
        (List.range n).map (fun nb =>
          match lookupFn (topic ++ "-partition-" ++ toString nb) with
          | .error e => .error e
          | .ok address => .ok (topic ++ "-partition-" ++ toString nb, address)) :=
      List.mem_map_of_mem _ (List.mem_range.mpr hi)
    obtain ⟨p, hp, hpmem⟩ := hmem _ hin
    cases hl : lookupFn (topic ++ "-partition-" ++ toString i) with
    | error e => rw [hl] at hp; simp at hp
    | ok a =>
      rw [hl] at hp
      cases hp
      exact ⟨a, rfl, hpmem⟩
  · intro i e hi hfail hprev
    have := try_join_all_first_error
      (fun nb =>
        match lookupFn (topic ++ "-partition-" ++ toString nb) with
        | .error e => .error e
        | .ok address => .ok (topic ++ "-partition-" ++ toString nb, address))
      e (List.range n) i (by simpa using hi)
      (by simp [List.getElem_range, hfail])
      (fun j hj hji => by
        obtain ⟨a, ha⟩ := hprev j hji
        exact ⟨(topic ++ "-partition-" ++ toString j, a),
          by simp [List.getElem_range, ha]⟩)
    simpa [lookup_partitioned_topic] using this

/-- Witness for C6 with partition count 3 and a fan-out failing exactly on
partition 1. -/
theorem lookup_partitioned_topic_all_or_nothing_witness :
    lookup_partitioned_topic (.ok 3) pfail1 "t" = .error .NotFound := by
  refine (lookup_partitioned_topic_all_or_nothing "t" 3 pfail1).2 1
    ServiceDiscoveryError.NotFound (by decide) (by decide) ?_
  intro j hj
  have hj0 : j = 0 := by omega
  subst hj0
  exact ⟨paddr0 "t-partition-0", by decide⟩

/-- One `ServiceNotReady` failure with budget remaining: one request, one
500ms delay, decrement the budget, continue with the rest of the script. -/
theorem lookupLoop_snr_step (pu : String → Option Url) (mgr : Manager)
    (topic : String) (msg : Option String) (rest : List Iter) (st : St)
    (hlt : 0 < st.max_retries) :
    lookupLoop pu mgr topic (snrIter msg :: rest) st =
      (let r := lookupLoop pu mgr topic rest
        { st with max_retries := st.max_retries - 1 }
       ⟨r.outcome, ⟨topic, st.is_authoritative, st.connTarget⟩ :: r.requests,
        1 + r.delays, r.addresses, st.proxied_query :: r.proxiedFlags,
        r.finalOutcome⟩) := by
  simp [lookupLoop, doSend, handleResp, snrIter, snrResp, hlt]

/-- One `ServiceNotReady` failure with the budget exhausted: the `Query`
error carrying the decoded server error and the message. -/
theorem lookupLoop_snr_stop (pu : String → Option Url) (mgr : Manager)
    (topic : String) (msg : Option String) (rest : List Iter) (st : St)
    (h : st.max_retries = 0) :
    lookupLoop pu mgr topic (snrIter msg :: rest) st =
      ⟨.err (.Query (some ServerError.ServiceNotReady) msg),
       [⟨topic, st.is_authoritative, st.connTarget⟩], 0, [],
       [st.proxied_query], none⟩ := by
  simp [lookupLoop, doSend, handleResp, snrIter, snrResp, h]

/-- A failed response whose server error is not `ServiceNotReady` fails
immediately with `Query`, with no delay and no retry. -/
theorem lookupLoop_other_error_stop (pu : String → Option Url) (mgr : Manager)
    (topic : String) (e : Option ServerError)
    (he : e ≠ some ServerError.ServiceNotReady) (msg : Option String)
    (rest : List Iter) (st : St) :
    lookupLoop pu mgr topic (failIter e msg :: rest) st =
      ⟨.err (.Query e msg), [⟨topic, st.is_authoritative, st.connTarget⟩], 0,
       [], [st.proxied_query], none⟩ := by
  simp [lookupLoop, doSend, handleResp, failIter, failResp, he]

/-- `m` consecutive `ServiceNotReady` failures within budget are all retried:
each takes one 500ms delay and one request, and the loop keeps going. -/
theorem lookupLoop_snr_within_budget (pu : String → Option Url) (mgr : Manager)
    (topic : String) (msg : Option String) :
    ∀ (m : Nat) (st : St), m ≤ st.max_retries →
      (lookupLoop pu mgr topic (List.replicate m (snrIter msg)) st).outcome
        = .outOfScript
      ∧ (lookupLoop pu mgr topic (List.replicate m (snrIter msg)) st).delays = m
      ∧ (lookupLoop pu mgr topic
          (List.replicate m (snrIter msg)) st).requests.length = m := by
  intro m
  induction m with
  | zero => intro st _; exact ⟨rfl, rfl, rfl⟩
  | succ m ih =>
    intro st hm
    have hlt : 0 < st.max_retries := lt_of_lt_of_le (Nat.succ_pos m) hm
    obtain ⟨h1, h2, h3⟩ :=
      ih { st with max_retries := st.max_retries - 1 }
        (by show m ≤ st.max_retries - 1; omega)
    rw [List.replicate_succ, lookupLoop_snr_step pu mgr topic msg _ st hlt]
    refine ⟨by simpa using h1, by simp [h2, Nat.add_comm], by simp [h3, Nat.add_comm]⟩

/-- When the budget is exactly `m`, the `(m+1)`-st consecutive
`ServiceNotReady` failure exhausts it and produces the `Query` error carrying
the decoded server error and the message, after `m` delays and `m + 1`
requests. -/
theorem lookupLoop_snr_exhaust (pu : String → Option Url) (mgr : Manager)
    (topic : String) (msg : Option String) :
    ∀ (m : Nat) (st : St), st.max_retries = m →
      (lookupLoop pu mgr topic (List.replicate (m + 1) (snrIter msg)) st).outcome
        = .err (.Query (some ServerError.ServiceNotReady) msg)
      ∧ (lookupLoop pu mgr topic
          (List.replicate (m + 1) (snrIter msg)) st).delays = m
      ∧ (lookupLoop pu mgr topic
          (List.replicate (m + 1) (snrIter msg)) st).requests.length = m + 1 := by
  intro m
  induction m with
  | zero =>
    intro st hst
    rw [List.replicate_succ, List.replicate_zero,
      lookupLoop_snr_stop pu mgr topic msg [] st hst]
    exact ⟨rfl, rfl, rfl⟩
  | succ m ih =>
    intro st hst
    have hlt : 0 < st.max_retries := by omega
    obtain ⟨h1, h2, h3⟩ :=
      ih { st with max_retries := st.max_retries - 1 }
        (by show st.max_retries - 1 = m; omega)
    rw [List.replicate_succ, lookupLoop_snr_step pu mgr topic msg _ st hlt]
    refine ⟨by simpa using h1, by simp [h2, Nat.add_comm], by simp [h3, Nat.add_comm]⟩

/-- Analogue of `lookupLoop_snr_step` for the partition-count loop. -/
theorem partLoop_snr_step (msg : Option String) (rest : List PartIter)
    (retries : Nat) (hlt : 0 < retries) :
    partLoop (psnrIter msg :: rest) retries =
      (let r := partLoop rest (retries - 1)
       ⟨r.outcome, 1 + r.delays, 1 + r.requests⟩) := by
  simp [partLoop, partHandle, psnrIter, psnrResp, hlt]

/-- Analogue of `lookupLoop_snr_stop` for the partition-count loop. -/
theorem partLoop_snr_stop (msg : Option String) (rest : List PartIter) :
    partLoop (psnrIter msg :: rest) 0 =
      ⟨.err (.Query (some ServerError.ServiceNotReady) msg), 0, 1⟩ := by
  simp [partLoop, partHandle, psnrIter, psnrResp]

/-- Analogue of `lookupLoop_other_error_stop` for the partition-count loop. -/
theorem partLoop_other_error_stop (e : Option ServerError)
    (he : e ≠ some ServerError.ServiceNotReady) (msg : Option String)
    (rest : List PartIter) (retries : Nat) :
    partLoop (pfailIter e msg :: rest) retries = ⟨.err (.Query e msg), 0, 1⟩ := by
  simp [partLoop, partHandle, pfailIter, pfailResp, he]

/-- Analogue of `lookupLoop_snr_within_budget` for the partition-count loop. -/
theorem partLoop_snr_within_budget (msg : Option String) :
    ∀ (m retries : Nat), m ≤ retries →
      partLoop (List.replicate m (psnrIter msg)) retries = ⟨.outOfScript, m, m⟩ := by
  intro m
  induction m with
  | zero => intro retries _; rfl
  | succ m ih =>
    intro retries hm
    have hlt : 0 < retries := lt_of_lt_of_le (Nat.succ_pos m) hm
    have h := ih (retries - 1) (by omega)
    rw [List.replicate_succ, partLoop_snr_step msg _ retries hlt]
    simp [h, Nat.add_comm]

/-- Analogue of `lookupLoop_snr_exhaust` for the partition-count loop. -/
theorem partLoop_snr_exhaust (msg : Option String) :
    ∀ (m : Nat),
      partLoop (List.replicate (m + 1) (psnrIter msg)) m
        = ⟨.err (.Query (some ServerError.ServiceNotReady) msg), m, m + 1⟩ := by
  intro m
  induction m with
  | zero =>
    rw [List.replicate_succ, List.replicate_zero, partLoop_snr_stop]
  | succ m ih =>
    rw [List.replicate_succ, partLoop_snr_step msg _ (m + 1) (Nat.succ_pos m)]
    simp [ih, Nat.add_comm]

/-- C3: in `lookup_topic` (and likewise `lookup_partitioned_topic_number`),
a failed response whose server error decodes to `ServiceNotReady` is retried
with a 500ms delay while budget remains — any `k ≤ 20` consecutive such
responses are all absorbed (one delay each, loop still running) — the 21st
consecutive one exhausts the budget and produces `Query` carrying the decoded
error and the message after exactly 20 delays and 21 requests, and any other
server error fails immediately with `Query` and no delay. -/
theorem serviceNotReady_retry_policy (pu : String → Option Url) (mgr : Manager)
    (topic : String) (msg msg2 : Option String) (e : ServerError)
    (he : e ≠ ServerError.ServiceNotReady) (k : Nat) (hk : k ≤ 20)
    (rest : List Iter) (prest : List PartIter) :
    ((lookup_topic pu mgr (.ok ()) topic
        (List.replicate k (snrIter msg))).outcome = .outOfScript
      ∧ (lookup_topic pu mgr (.ok ()) topic
          (List.replicate k (snrIter msg))).delays = k)
    ∧ ((lookup_topic pu mgr (.ok ()) topic
          (List.replicate 21 (snrIter msg))).outcome
            = .err (.Query (some ServerError.ServiceNotReady) msg)
      ∧ (lookup_topic pu mgr (.ok ()) topic
          (List.replicate 21 (snrIter msg))).delays = 20
      ∧ (lookup_topic pu mgr (.ok ()) topic
          (List.replicate 21 (snrIter msg))).requests.length = 21)
    ∧ ((lookup_topic pu mgr (.ok ()) topic
          (failIter (some e) msg2 :: rest)).outcome = .err (.Query (some e) msg2)
      ∧ (lookup_topic pu mgr (.ok ()) topic
          (failIter (some e) msg2 :: rest)).delays = 0)
    ∧ lookup_partitioned_topic_number (.ok ())
        (List.replicate k (psnrIter msg)) = ⟨.outOfScript, k, k⟩
    ∧ lookup_partitioned_topic_number (.ok ())
        (List.replicate 21 (psnrIter msg))
          = ⟨.err (.Query (some ServerError.ServiceNotReady) msg), 20, 21⟩
    ∧ lookup_partitioned_topic_number (.ok ())
        (pfailIter (some e) msg2 :: prest) = ⟨.err (.Query (some e) msg2), 0, 1⟩ := by
  have hini : (initSt mgr).max_retries = 20 := rfl
  refine ⟨?_, ?_, ?_, ?_, ?_, ?_⟩
  · obtain ⟨h1, h2, _⟩ := lookupLoop_snr_within_budget pu mgr topic msg k
      (initSt mgr) (by omega)
    exact ⟨h1, h2⟩
  · exact lookupLoop_snr_exhaust pu mgr topic msg 20 (initSt mgr) hini
  · rw [show lookup_topic pu mgr (.ok ()) topic (failIter (some e) msg2 :: rest)
        = lookupLoop pu mgr topic (failIter (some e) msg2 :: rest) (initSt mgr)
        from rfl,
      lookupLoop_other_error_stop pu mgr topic (some e) (by simp [he]) msg2
        rest (initSt mgr)]
    exact ⟨rfl, rfl⟩
  · exact partLoop_snr_within_budget msg k 20 (by omega)
  · exact partLoop_snr_exhaust msg 20
  · exact partLoop_other_error_stop (some e) (by simp [he]) msg2 prest 20

/-- Witness for C3 with a concrete oracle, manager, topic, messages, the
server error `other 0`, and `k = 20`. -/
theorem serviceNotReady_retry_policy_witness :
    ((lookup_topic pu0 mgr0 (.ok ()) "t"
        (List.replicate 20 (snrIter (some "m")))).outcome = .outOfScript
      ∧ (lookup_topic pu0 mgr0 (.ok ()) "t"
          (List.replicate 20 (snrIter (some "m")))).delays = 20)
    ∧ ((lookup_topic pu0 mgr0 (.ok ()) "t"
          (List.replicate 21 (snrIter (some "m")))).outcome
            = .err (.Query (some ServerError.ServiceNotReady) (some "m"))
      ∧ (lookup_topic pu0 mgr0 (.ok ()) "t"
          (List.replicate 21 (snrIter (some "m")))).delays = 20
      ∧ (lookup_topic pu0 mgr0 (.ok ()) "t"
          (List.replicate 21 (snrIter (some "m")))).requests.length = 21)
    ∧ ((lookup_topic pu0 mgr0 (.ok ()) "t"
          (failIter (some (.other 0)) (some "m2") :: [])).outcome
            = .err (.Query (some (.other 0)) (some "m2"))
      ∧ (lookup_topic pu0 mgr0 (.ok ()) "t"
          (failIter (some (.other 0)) (some "m2") :: [])).delays = 0)
    ∧ lookup_partitioned_topic_number (.ok ())
        (List.replicate 20 (psnrIter (some "m"))) = ⟨.outOfScript, 20, 20⟩
    ∧ lookup_partitioned_topic_number (.ok ())
        (List.replicate 21 (psnrIter (some "m")))
          = ⟨.err (.Query (some ServerError.ServiceNotReady) (some "m")), 20, 21⟩
    ∧ lookup_partitioned_topic_number (.ok ())
        (pfailIter (some (.other 0)) (some "m2") :: [])
          = ⟨.err (.Query (some (.other 0)) (some "m2")), 0, 1⟩ :=
  serviceNotReady_retry_policy pu0 mgr0 "t" (some "m") (some "m2")
    (.other 0) (by decide) 20 (by decide) [] []

/-- `handleResp` only ever prepends its `reqs` argument to the requests it
accumulates, so an extra leading request event commutes out. -/
theorem handleResp_cons_req (pu : String → Option Url) (mgr : Manager)
    (recurse : St → LookupRun) (gc : Except ConnectionError Unit)
    (resp : CommandLookupTopicResponse) (req0 : ReqEvent)
    (reqs : List ReqEvent) (st : St) :
    handleResp pu mgr recurse gc resp (req0 :: reqs) st =
      (let r := handleResp pu mgr recurse gc resp reqs st
       ⟨r.outcome, req0 :: r.requests, r.delays, r.addresses, r.proxiedFlags,
        r.finalOutcome⟩) := by
  simp only [handleResp]
  repeat' split
  all_goals rfl

/-- C7: when the send reports `Disconnected`, the resolver reconnects to the
current `broker_address` and re-sends the same request (same topic, same
`is_authoritative`) exactly once: after a successful re-send the run is the
run in which the response had arrived directly — same state, in particular
the same `max_retries` budget — except for the extra leading request event.
Any transport error other than `Disconnected`, and any error of the single
re-send, surfaces immediately as a fatal `Connection` error. -/
theorem lookup_disconnected_resend_once (pu : String → Option Url)
    (mgr : Manager) (topic : String) (it : Iter) (rest : List Iter) (st : St) :
    (∀ resp, it.send = .error .Disconnected → it.reconnect = .ok () →
       it.resend = .ok resp →
       lookupLoop pu mgr topic (it :: rest) st =
         (let r := lookupLoop pu mgr topic ({ it with send := .ok resp } :: rest)
            { st with connTarget := st.broker_address }
          ⟨r.outcome, ⟨topic, st.is_authoritative, st.connTarget⟩ :: r.requests,
           r.delays, r.addresses, r.proxiedFlags, r.finalOutcome⟩))
    ∧ (∀ e, it.send = .error e → e ≠ .Disconnected →
       lookupLoop pu mgr topic (it :: rest) st =
         ⟨.err (.Connection e), [⟨topic, st.is_authoritative, st.connTarget⟩],
          0, [], [st.proxied_query], none⟩)
    ∧ (∀ e2, it.send = .error .Disconnected → it.reconnect = .ok () →
       it.resend = .error e2 →
       lookupLoop pu mgr topic (it :: rest) st =
         ⟨.err (.Connection e2),
          [⟨topic, st.is_authoritative, st.connTarget⟩,
           ⟨topic, st.is_authoritative, st.broker_address⟩],
          0, [], [st.proxied_query], none⟩) := by
  refine ⟨?_, ?_, ?_⟩
  · intro resp hsend hrec hres
    simp [lookupLoop, doSend, hsend, hrec, hres, handleResp_cons_req]
  · intro e hsend he
    simp [lookupLoop, doSend, hsend, he]
  · intro e2 hsend hrec hres
    simp [lookupLoop, doSend, hsend, hrec, hres]

/-- Witness for C7 at the concrete disconnected iteration `dcIter`. -/
theorem lookup_disconnected_resend_once_witness :
    lookupLoop pu0 mgr0 "t" (dcIter :: []) (initSt mgr0) =
      (let r := lookupLoop pu0 mgr0 "t" ({ dcIter with send := .ok okResp } :: [])
         { initSt mgr0 with connTarget := (initSt mgr0).broker_address }
       ⟨r.outcome,
        ⟨"t", (initSt mgr0).is_authoritative, (initSt mgr0).connTarget⟩
          :: r.requests,
        r.delays, r.addresses, r.proxiedFlags, r.finalOutcome⟩) :=
  (lookup_disconnected_resend_once pu0 mgr0 "t" dcIter [] (initSt mgr0)).1
    okResp rfl rfl rfl

/-- C8: a redirect response followed by a successful non-redirect response
resolves after exactly two lookup requests: the first carries
`is_authoritative = false` on the base connection, the second is sent on a
connection acquired to the redirect target's `BrokerAddress` and carries
exactly the `authoritative` flag parsed from the first response. -/
theorem lookup_redirect_two_requests (pu : String → Option Url) (mgr : Manager)
    (topic : String) (it1 it2 : Iter)
    (r1 r2 : CommandLookupTopicResponse) (lr1 lr2 : LookupResponse)
    (s1 s2 : String)
    (h1s : it1.send = .ok r1) (h2s : it2.send = .ok r2)
    (hresp1 : r1.response = some LookupType.Redirect)
    (hresp2 : r2.response = some LookupType.Connect)
    (hc1 : convert_lookup_response pu r1 = .ok lr1)
    (hc2 : convert_lookup_response pu r2 = .ok lr2)
    (hred1 : lr1.redirect = true) (hred2 : lr2.redirect = false)
    (hbs1 : brokerUrlString lr1.broker_url lr1.broker_url_tls = some s1)
    (hbs2 : brokerUrlString lr2.broker_url lr2.broker_url_tls = some s2)
    (hg1 : it1.getConn = .ok ()) (hg2 : it2.getConn = .ok ()) :
    ∃ ba1 ba2,
      (lookupLoop pu mgr topic (it1 :: it2 :: []) (initSt mgr)).addresses
        = [ba1, ba2]
      ∧ (lookupLoop pu mgr topic (it1 :: it2 :: []) (initSt mgr)).requests
        = [⟨topic, false, mgr.baseAddress⟩, ⟨topic, lr1.authoritative, ba1⟩]
      ∧ (lookupLoop pu mgr topic (it1 :: it2 :: []) (initSt mgr)).outcome
        = .ok ba2 := by
  simp only [lookupLoop, doSend, h1s, h2s, handleResp, initSt]
  simp only [hresp1, hresp2, hc1, hc2, hred1, hred2, hbs1, hbs2, hg1, hg2]
  simp [hresp1, hresp2, hred1, hred2, hg1, hg2]

/-- Witness for C8: the concrete redirect iteration `redirIter` followed by
the concrete successful iteration `okIter`. -/
theorem lookup_redirect_two_requests_witness :
    ∃ ba1 ba2,
      (lookupLoop pu0 mgr0 "t" (redirIter :: okIter :: []) (initSt mgr0)).addresses
        = [ba1, ba2]
      ∧ (lookupLoop pu0 mgr0 "t" (redirIter :: okIter :: []) (initSt mgr0)).requests
        = [⟨"t", false, mgr0.baseAddress⟩,
           ⟨"t", (⟨⟨some "b1", some 6650⟩, none, true, true, true⟩ :
              LookupResponse).authoritative, ba1⟩]
      ∧ (lookupLoop pu0 mgr0 "t" (redirIter :: okIter :: []) (initSt mgr0)).outcome
        = .ok ba2 :=
  lookup_redirect_two_requests pu0 mgr0 "t" redirIter okIter redirResp okResp
    ⟨⟨some "b1", some 6650⟩, none, true, true, true⟩
    ⟨⟨some "b1", some 6650⟩, some ⟨some "b1", none⟩, false, false, false⟩
    "b1:6650" "b1:6651" rfl rfl rfl rfl (by decide) (by decide) rfl rfl
    (by decide) (by decide) rfl rfl

/-- A successful send step leaves the loop state unchanged except possibly
for the connection target (updated on reconnect). -/
theorem doSend_ok_state (topic : String) (it : Iter) (st : St)
    (reqs : List ReqEvent) (resp : CommandLookupTopicResponse) (st' : St)
    (h : doSend topic it st = (reqs, .ok (resp, st'))) :
    st' = st ∨ st' = { st with connTarget := st.broker_address } := by
  simp only [doSend] at h
  split at h
  · cases h; exact Or.inl rfl
  · split at h
    · split at h
      · cases h
      · split at h
        · cases h
        · cases h; exact Or.inr rfl
    · cases h

/-- `handleResp` preserves `BrokerUrlSpec` on a resolved outcome, assuming
the recursion does. -/
theorem handleResp_brokerUrl (pu : String → Option Url) (mgr : Manager)
    (recurse : St → LookupRun) (gc : Except ConnectionError Unit)
    (resp : CommandLookupTopicResponse) (reqs : List ReqEvent) (st : St)
    (hrec : ∀ st' addr, (recurse st').outcome = .ok addr →
      BrokerUrlSpec (recurse st') addr) :
    ∀ addr, (handleResp pu mgr recurse gc resp reqs st).outcome = .ok addr →
      BrokerUrlSpec (handleResp pu mgr recurse gc resp reqs st) addr := by
  intro addr h
  by_cases hfail : resp.response = none ∨ resp.response = some LookupType.Failed
  · by_cases hsnr : resp.error = some ServerError.ServiceNotReady
        ∧ 0 < st.max_retries
    · simp only [handleResp, if_pos hfail, if_pos hsnr] at h ⊢
      obtain ⟨lr, h1, h2, h3⟩ := hrec _ addr h
      exact ⟨lr, h1, h2, h3⟩
    · simp only [handleResp, if_pos hfail, if_neg hsnr] at h
      simp at h
  · rcases hc : convert_lookup_response pu resp with e | lr
    · simp only [handleResp, if_neg hfail, hc] at h
      simp at h
    · simp only [handleResp, if_neg hfail, hc] at h ⊢
      rcases hbs : brokerUrlString lr.broker_url lr.broker_url_tls with _ | bs
      · rw [hbs] at h
        simp at h
      · rw [hbs] at h
        by_cases hred : lr.redirect = true
        · simp only [if_pos hred] at h ⊢
          cases gc with
          | error e => simp at h
          | ok u =>
            exact hrec _ addr h
        · simp only [if_neg hred] at h ⊢
          cases gc with
          | error e => simp at h
          | ok u =>
            have hba := Outcome.ok.inj h
            subst hba
            refine ⟨lr, rfl, by simpa using hred, ?_⟩
            rcases htls : lr.broker_url_tls with _ | u2
            · rw [htls] at hbs
              simp only [brokerUrlString] at hbs
              rcases hhost : lr.broker_url.host with _ | hname
              · rw [hhost] at hbs; simp at hbs
              · rw [hhost] at hbs
                have hbs' : hname ++ ":" ++ toString (lr.broker_url.port.getD 6650)
                    = bs := by simpa using hbs
                exact Or.inr ⟨rfl, hname, rfl, hbs'.symm⟩
            · rw [htls] at hbs
              simp only [brokerUrlString] at hbs
              rcases hhost : u2.host with _ | hname
              · rw [hhost] at hbs; simp at hbs
              · rw [hhost] at hbs
                have hbs' : hname ++ ":" ++ toString (u2.port.getD 6651)
                    = bs := by simpa using hbs
                exact Or.inl ⟨u2, hname, rfl, hhost, hbs'.symm⟩

/-- `lookupLoop` satisfies `BrokerUrlSpec` on every resolved outcome. -/
theorem lookupLoop_brokerUrl (pu : String → Option Url) (mgr : Manager)
    (topic : String) :
    ∀ (script : List Iter) (st : St) (addr : BrokerAddress),
      (lookupLoop pu mgr topic script st).outcome = .ok addr →
      BrokerUrlSpec (lookupLoop pu mgr topic script st) addr := by
  intro script
  induction script with
  | nil =>
    intro st addr h
    simp [lookupLoop] at h
  | cons it rest ih =>
    intro st addr h
    rcases hds : doSend topic it st with ⟨reqs, res⟩
    cases res with
    | error e =>
      rw [lookupLoop, hds] at h
      simp at h
    | ok p =>
      rcases p with ⟨resp, st'⟩
      rw [lookupLoop, hds] at h ⊢
      exact handleResp_brokerUrl pu mgr _ it.getConn resp reqs st'
        (fun st'' a ha => ih st'' a ha) addr h

/-- C1: every successful (non-redirect, by construction of the terminal hop)
`lookup_topic` call returns a `BrokerAddress` whose `broker_url` is the
host:port of the TLS broker service URL of the final response (default port
6651) when a TLS URL is present, else the host:port of the plain broker
service URL (default port 6650). -/
theorem lookup_topic_broker_url_spec (pu : String → Option Url) (mgr : Manager)
    (baseConn : Except ConnectionError Unit) (topic : String)
    (script : List Iter) (addr : BrokerAddress)
    (h : (lookup_topic pu mgr baseConn topic script).outcome = .ok addr) :
    BrokerUrlSpec (lookup_topic pu mgr baseConn topic script) addr := by
  cases baseConn with
  | error e => simp [lookup_topic] at h
  | ok u =>
    exact lookupLoop_brokerUrl pu mgr topic script (initSt mgr) addr h

/-- Witness for C1 at the concrete successful run on `okIter`: the returned
`broker_url` is the TLS host with default port 6651. -/
theorem lookup_topic_broker_url_spec_witness :
    BrokerUrlSpec (lookup_topic pu0 mgr0 (.ok ()) "t" (okIter :: []))
      ⟨⟨some "b1", none⟩, "b1:6651", false⟩ :=
  lookup_topic_broker_url_spec pu0 mgr0 (.ok ()) "t" (okIter :: [])
    ⟨⟨some "b1", none⟩, "b1:6651", false⟩ (by decide)

/-- The empty address list is trivially a proxy chain. -/
theorem proxyChain_nil (mgr : Manager) : ProxyChain mgr [] :=
  fun i _ hi => absurd hi (by simp)

/-- A singleton is a proxy chain when proxy implies base URL. -/
theorem proxyChain_singleton (mgr : Manager) (ba : BrokerAddress)
    (h : ba.proxy = true → ba.url = mgr.url) : ProxyChain mgr [ba] := by
  intro i j hi hj _ hp
  have hi0 : i = 0 := by simpa using Nat.lt_one_iff.mp (by simpa using hi)
  have hj0 : j = 0 := by simpa using Nat.lt_one_iff.mp (by simpa using hj)
  subst hi0; subst hj0
  exact ⟨hp, h hp⟩

/-- Cons preserves proxy chains when a proxied head forces the tail to be
fully proxied. -/
theorem proxyChain_cons (mgr : Manager) (ba : BrokerAddress)
    (l : List BrokerAddress)
    (hba : ba.proxy = true →
      ba.url = mgr.url ∧ ∀ a ∈ l, a.proxy = true ∧ a.url = mgr.url)
    (hl : ProxyChain mgr l) : ProxyChain mgr (ba :: l) := by
  intro i j hi hj hij hp
  cases i with
  | zero =>
    obtain ⟨hurl, hall⟩ := hba (by simpa using hp)
    cases j with
    | zero => exact ⟨by simpa using hp, by simpa using hurl⟩
    | succ j =>
      have hj' : j < l.length := by simpa using hj
      have := hall (l.get ⟨j, hj'⟩) (List.get_mem l j hj')
      simpa using this
  | succ i =>
    cases j with
    | zero => omega
    | succ j =>
      have hi' : i < l.length := by simpa using hi
      have hj' : j < l.length := by simpa using hj
      have := hl i j hi' hj' (by omega) (by simpa using hp)
      simpa using this

/-- The empty flag list is trivially monotone. -/
theorem monoFlags_nil : MonoFlags [] :=
  fun i _ hi => absurd hi (by simp)

/-- Cons preserves flag monotonicity when a true head forces the tail to be
all true. -/
theorem monoFlags_cons (b : Bool) (l : List Bool)
    (hb : b = true → ∀ f ∈ l, f = true) (hl : MonoFlags l) :
    MonoFlags (b :: l) := by
  intro i j hi hj hij hp
  cases i with
  | zero =>
    have hall := hb (by simpa using hp)
    cases j with
    | zero => simpa using hp
    | succ j =>
      have hj' : j < l.length := by simpa using hj
      have := hall (l.get ⟨j, hj'⟩) (List.get_mem l j hj')
      simpa using this
  | succ i =>
    cases j with
    | zero => omega
    | succ j =>
      have hi' : i < l.length := by simpa using hi
      have hj' : j < l.length := by simpa using hj
      have := hl i j hi' hj' (by omega) (by simpa using hp)
      simpa using this

/-- `handleResp` of a proxied state yields a fully proxied run, assuming the
recursion does. -/
theorem handleResp_sticky (pu : String → Option Url) (mgr : Manager)
    (recurse : St → LookupRun) (gc : Except ConnectionError Unit)
    (resp : CommandLookupTopicResponse) (reqs : List ReqEvent) (st : St)
    (hrec : ∀ st', st'.proxied_query = true → StickyRun mgr (recurse st'))
    (hst : st.proxied_query = true) :
    StickyRun mgr (handleResp pu mgr recurse gc resp reqs st) := by
  by_cases hfail : resp.response = none ∨ resp.response = some LookupType.Failed
  · by_cases hsnr : resp.error = some ServerError.ServiceNotReady
        ∧ 0 < st.max_retries
    · simp only [handleResp, if_pos hfail, if_pos hsnr]
      obtain ⟨ha, hf⟩ := hrec { st with max_retries := st.max_retries - 1 } hst
      refine ⟨ha, fun f hmem => ?_⟩
      rcases List.mem_cons.mp hmem with h1 | h1
      · exact h1.trans hst
      · exact hf f h1
    · simp only [handleResp, if_pos hfail, if_neg hsnr]
      exact ⟨fun a ha => absurd ha (List.not_mem_nil a),
        fun f hmem => (List.mem_singleton.mp hmem).trans hst⟩
  · rcases hc : convert_lookup_response pu resp with e | lr
    · simp only [handleResp, if_neg hfail, hc]
      exact ⟨fun a ha => absurd ha (List.not_mem_nil a),
        fun f hmem => (List.mem_singleton.mp hmem).trans hst⟩
    · simp only [handleResp, if_neg hfail, hc]
      rcases hbs : brokerUrlString lr.broker_url lr.broker_url_tls with _ | bs
      · exact ⟨fun a ha => absurd ha (List.not_mem_nil a),
          fun f hmem => (List.mem_singleton.mp hmem).trans hst⟩
      · have hproxy : (st.proxied_query || lr.proxy) = true := by rw [hst]; simp
        have hurl : (if (st.proxied_query || lr.proxy) = true then mgr.url
            else lr.broker_url_tls.getD lr.broker_url) = mgr.url := if_pos hproxy
        by_cases hred : lr.redirect = true
        · simp only [if_pos hred]
          cases gc with
          | error e =>
            refine ⟨fun a hmem => ?_,
              fun f hmem => (List.mem_singleton.mp hmem).trans hst⟩
            have h1 := List.mem_singleton.mp hmem
            subst h1
            exact ⟨hproxy, hurl⟩
          | ok u =>
            obtain ⟨ha, hf⟩ := hrec
              ⟨st.proxied_query || lr.proxy, lr.authoritative,
               ⟨if (st.proxied_query || lr.proxy) = true then mgr.url
                  else lr.broker_url_tls.getD lr.broker_url, bs,
                st.proxied_query || lr.proxy⟩,
               st.max_retries,
               ⟨if (st.proxied_query || lr.proxy) = true then mgr.url
                  else lr.broker_url_tls.getD lr.broker_url, bs,
                st.proxied_query || lr.proxy⟩⟩ hproxy
            refine ⟨fun a hmem => ?_, fun f hmem => ?_⟩
            · rcases List.mem_cons.mp hmem with h1 | h1
              · subst h1; exact ⟨hproxy, hurl⟩
              · exact ha a h1
            · rcases List.mem_cons.mp hmem with h1 | h1
              · exact h1.trans hst
              · exact hf f h1
        · simp only [if_neg hred]
          cases gc with
          | error e =>
            refine ⟨fun a hmem => ?_,
              fun f hmem => (List.mem_singleton.mp hmem).trans hst⟩
            have h1 := List.mem_singleton.mp hmem
            subst h1
            exact ⟨hproxy, hurl⟩
          | ok u =>
            refine ⟨fun a hmem => ?_,
              fun f hmem => (List.mem_singleton.mp hmem).trans hst⟩
            have h1 := List.mem_singleton.mp hmem
            subst h1
            exact ⟨hproxy, hurl⟩

/-- The loop started in a proxied state yields a fully proxied run. -/
theorem lookupLoop_sticky (pu : String → Option Url) (mgr : Manager)
    (topic : String) :
    ∀ (script : List Iter) (st : St), st.proxied_query = true →
      StickyRun mgr (lookupLoop pu mgr topic script st) := by
  intro script
  induction script with
  | nil =>
    intro st _
    exact ⟨fun a ha => absurd ha (List.not_mem_nil a),
      fun f hf => absurd hf (List.not_mem_nil f)⟩
  | cons it rest ih =>
    intro st hst
    rcases hds : doSend topic it st with ⟨reqs, res⟩
    cases res with
    | error e =>
      rw [lookupLoop, hds]
      exact ⟨fun a ha => absurd ha (List.not_mem_nil a),
        fun f hf => (List.mem_singleton.mp hf).trans hst⟩
    | ok p =>
      rcases p with ⟨resp, st'⟩
      rw [lookupLoop, hds]
      have hst' : st'.proxied_query = true := by
        rcases doSend_ok_state topic it st reqs resp st' hds with h | h <;>
          rw [h] <;> exact hst
      exact handleResp_sticky pu mgr _ it.getConn resp reqs st'
        (fun st'' h'' => ih st'' h'') hst'

/-- `handleResp` preserves the chain properties of the trace, assuming the
recursion is sticky and chain-respecting. -/
theorem handleResp_chain (pu : String → Option Url) (mgr : Manager)
    (recurse : St → LookupRun) (gc : Except ConnectionError Unit)
    (resp : CommandLookupTopicResponse) (reqs : List ReqEvent) (st : St)
    (hrecS : ∀ st', st'.proxied_query = true → StickyRun mgr (recurse st'))
    (hrecA : ∀ st', ProxyChain mgr (recurse st').addresses)
    (hrecF : ∀ st', MonoFlags (recurse st').proxiedFlags) :
    ProxyChain mgr (handleResp pu mgr recurse gc resp reqs st).addresses
    ∧ MonoFlags (handleResp pu mgr recurse gc resp reqs st).proxiedFlags := by
  by_cases hfail : resp.response = none ∨ resp.response = some LookupType.Failed
  · by_cases hsnr : resp.error = some ServerError.ServiceNotReady
        ∧ 0 < st.max_retries
    · simp only [handleResp, if_pos hfail, if_pos hsnr]
      exact ⟨hrecA _, monoFlags_cons _ _
        (fun hb => (hrecS { st with max_retries := st.max_retries - 1 } hb).2)
        (hrecF _)⟩
    · simp only [handleResp, if_pos hfail, if_neg hsnr]
      exact ⟨proxyChain_nil mgr, monoFlags_cons _ []
        (fun _ f hf => absurd hf (List.not_mem_nil f)) monoFlags_nil⟩
  · rcases hc : convert_lookup_response pu resp with e | lr
    · simp only [handleResp, if_neg hfail, hc]
      exact ⟨proxyChain_nil mgr, monoFlags_cons _ []
        (fun _ f hf => absurd hf (List.not_mem_nil f)) monoFlags_nil⟩
    · simp only [handleResp, if_neg hfail, hc]
      rcases hbs : brokerUrlString lr.broker_url lr.broker_url_tls with _ | bs
      · exact ⟨proxyChain_nil mgr, monoFlags_cons _ []
          (fun _ f hf => absurd hf (List.not_mem_nil f)) monoFlags_nil⟩
      · by_cases hred : lr.redirect = true
        · simp only [if_pos hred]
          cases gc with
          | error e =>
            exact ⟨proxyChain_singleton mgr _ (fun hp => if_pos hp),
              monoFlags_cons _ []
                (fun _ f hf => absurd hf (List.not_mem_nil f)) monoFlags_nil⟩
          | ok u =>
            refine ⟨proxyChain_cons mgr _ _
              (fun hp => ⟨if_pos hp, ?_⟩) (hrecA _),
              monoFlags_cons _ _ (fun hb => ?_) (hrecF _)⟩
            · exact (hrecS
                ⟨st.proxied_query || lr.proxy, lr.authoritative,
                 ⟨if (st.proxied_query || lr.proxy) = true then mgr.url
                    else lr.broker_url_tls.getD lr.broker_url, bs,
                  st.proxied_query || lr.proxy⟩,
                 st.max_retries,
                 ⟨if (st.proxied_query || lr.proxy) = true then mgr.url
                    else lr.broker_url_tls.getD lr.broker_url, bs,
                  st.proxied_query || lr.proxy⟩⟩ hp).1
            · have hor : (st.proxied_query || lr.proxy) = true := by rw [hb]; simp
              exact (hrecS
                ⟨st.proxied_query || lr.proxy, lr.authoritative,
                 ⟨if (st.proxied_query || lr.proxy) = true then mgr.url
                    else lr.broker_url_tls.getD lr.broker_url, bs,
                  st.proxied_query || lr.proxy⟩,
                 st.max_retries,
                 ⟨if (st.proxied_query || lr.proxy) = true then mgr.url
                    else lr.broker_url_tls.getD lr.broker_url, bs,
                  st.proxied_query || lr.proxy⟩⟩ hor).2
        · simp only [if_neg hred]
          cases gc with
          | error e =>
            exact ⟨proxyChain_singleton mgr _ (fun hp => if_pos hp),
              monoFlags_cons _ []
                (fun _ f hf => absurd hf (List.not_mem_nil f)) monoFlags_nil⟩
          | ok u =>
            exact ⟨proxyChain_singleton mgr _ (fun hp => if_pos hp),
              monoFlags_cons _ []
                (fun _ f hf => absurd hf (List.not_mem_nil f)) monoFlags_nil⟩

/-- The loop's trace always satisfies the chain properties. -/
theorem lookupLoop_chain (pu : String → Option Url) (mgr : Manager)
    (topic : String) :
    ∀ (script : List Iter) (st : St),
      ProxyChain mgr (lookupLoop pu mgr topic script st).addresses
      ∧ MonoFlags (lookupLoop pu mgr topic script st).proxiedFlags := by
  intro script
  induction script with
  | nil => intro st; exact ⟨proxyChain_nil mgr, monoFlags_nil⟩
  | cons it rest ih =>
    intro st
    rcases hds : doSend topic it st with ⟨reqs, res⟩
    cases res with
    | error e =>
      rw [lookupLoop, hds]
      exact ⟨proxyChain_nil mgr, monoFlags_cons _ []
        (fun _ f hf => absurd hf (List.not_mem_nil f)) monoFlags_nil⟩
    | ok p =>
      rcases p with ⟨resp, st'⟩
      rw [lookupLoop, hds]
      exact handleResp_chain pu mgr _ it.getConn resp reqs st'
        (fun st'' h => lookupLoop_sticky pu mgr topic rest st'' h)
        (fun st'' => (ih st'').1) (fun st'' => (ih st'').2)

/-- C2: within one lookup chain, from any hop whose `BrokerAddress` has
`proxy = true` onwards (that hop included), every address built has
`proxy = true` and uses the cluster's base URL as its connect URL; and the
sticky `proxied_query` flag never reverts to false.  Starting from an
already-proxied state, the entire run is proxied through the base URL. -/
theorem lookup_proxy_sticky_chain (pu : String → Option Url) (mgr : Manager)
    (topic : String) (script : List Iter) (st : St) :
    ProxyChain mgr (lookupLoop pu mgr topic script st).addresses
    ∧ MonoFlags (lookupLoop pu mgr topic script st).proxiedFlags
    ∧ (st.proxied_query = true →
        StickyRun mgr (lookupLoop pu mgr topic script st)) :=
  ⟨(lookupLoop_chain pu mgr topic script st).1,
   (lookupLoop_chain pu mgr topic script st).2,
   lookupLoop_sticky pu mgr topic script st⟩

/-- Witness for C2: in the concrete run where the redirect hop is proxied,
the subsequent terminal hop is proxied and routed through the base URL. -/
theorem lookup_proxy_sticky_chain_witness :
    ((lookupLoop pu0 mgr0 "t" (redirIter :: okIter :: [])
        (initSt mgr0)).addresses.get ⟨1, by decide⟩).proxy = true
    ∧ ((lookupLoop pu0 mgr0 "t" (redirIter :: okIter :: [])
        (initSt mgr0)).addresses.get ⟨1, by decide⟩).url = mgr0.url :=
  (lookup_proxy_sticky_chain pu0 mgr0 "t" (redirIter :: okIter :: [])
      (initSt mgr0)).1
    0 1 (by decide) (by decide) (by decide) (by decide)

/-- C10 (failing input): `mailResp` carries the broker service URL
`mailto:user@example.com`, which the `url` crate parses successfully but
without a host component.  `convert_lookup_response` accepts it, and the
subsequent `host_str().unwrap()` in `lookup_topic` (line 99 of the source)
panics, modelled here by the `panicked` outcome. -/
theorem lookup_hostless_url_panics :
    (∃ lr, convert_lookup_response pu0 mailResp = .ok lr)
    ∧ (lookupLoop pu0 mgr0 "t" (mailIter :: []) (initSt mgr0)).outcome
        = .panicked :=
  ⟨⟨⟨⟨none, none⟩, none, false, false, false⟩, by decide⟩, by decide⟩

end PulsarSD
